import Mathlib

/-!
Verification development for the `dailyrotate` Go package: a daily rotating
file writer.  The package appends to a live file at a fixed absolute path,
rotates it by renaming to `YYYY-MM-DD-<basename>` (date taken from the file's
modification time), reopens a fresh live file, and prunes archives older than
a retention window `MaxAge` (`-1` meaning keep forever).

The embedding models time at calendar-day granularity: a `time.Time` is the
number of days since the proleptic-Gregorian date 0000-03-01 (all operations
the package performs on times — `Date()`, `Format("2006-01-02")`,
`AddDate(0, 0, -i)` — depend only on the calendar day).  The filesystem is
modelled as the listing of the single directory containing the live file,
an association list from entry name to modification day.  Fallible I/O
operations are driven by an explicit environment of failure outcomes.
-/

namespace DailyRotate

/-- A calendar date, as produced by Go's `time.Time.Date()`. -/
structure Date where
  y : Nat
  m : Nat
  d : Nat
deriving DecidableEq

/-- Split a day-of-era (0 ≤ doe < 146097, day 0 = March 1) into
(year-of-era, day-of-year), cutting off 100-year, 4-year and 1-year cycles
with capped quotients exactly as Go's `time.absDate` does (`n -= n >> 2`). -/
def yearSplit (doe : Nat) : Nat × Nat :=
  let a0 := doe / 36524
  let a := a0 - a0 / 4
  let r := doe - 36524 * a
  let b := r / 1461
  let r2 := r - 1461 * b
  let c0 := r2 / 365
  let c := c0 - c0 / 4
  (100 * a + 4 * b + c, r2 - 365 * c)

/-- Calendar date of a day-of-era (March-first based year, so
January/February belong to year-of-era + 1). -/
def civilOfDoe (doe : Nat) : Date :=
  let p := yearSplit doe
  let mp := (5 * p.2 + 2) / 153
  let dd := p.2 - (153 * mp + 2) / 5 + 1
  let mm := if mp < 10 then mp + 3 else mp - 9
  ⟨if mm ≤ 2 then p.1 + 1 else p.1, mm, dd⟩

/-- Calendar date of a day number (days since 0000-03-01), splitting off
400-year eras first, as Go's `time.absDate` does. -/
def civilFromDays (z : Nat) : Date :=
  let c := civilOfDoe (z % 146097)
  ⟨c.y + 400 * (z / 146097), c.m, c.d⟩

/-- Day number of a calendar date (inverse Gregorian conversion). -/
def daysFromCivil (c : Date) : Nat :=
  let y := if c.m ≤ 2 then c.y - 1 else c.y
  let era := y / 400
  let yoe := y % 400
  let mp := if 2 < c.m then c.m - 3 else c.m + 9
  let doy := (153 * mp + 2) / 5 + c.d - 1
  let doe := yoe * 365 + yoe / 4 - yoe / 100 + doy
  era * 146097 + doe

theorem yearSplit_arith (doe a0 a r b r2 c0 c : Nat) (h : doe < 146097)
    (ha0 : a0 = doe / 36524) (ha : a = a0 - a0 / 4) (hr : r = doe - 36524 * a)
    (hb : b = r / 1461) (hr2 : r2 = r - 1461 * b) (hc0 : c0 = r2 / 365)
    (hc : c = c0 - c0 / 4) :
    100 * a + 4 * b + c ≤ 399 ∧ r2 - 365 * c ≤ 365 ∧
      365 * (100 * a + 4 * b + c) + (100 * a + 4 * b + c) / 4 -
        (100 * a + 4 * b + c) / 100 + (r2 - 365 * c) = doe ∧
      (doe ≤ 146036 → 100 * a + 4 * b + c = 399 → r2 - 365 * c ≤ 305) := by
  have h1 : a ≤ 3 ∧ 36524 * a ≤ doe ∧ doe ≤ 36524 * a + 36524 := by omega
  have h2 : b ≤ 24 ∧ 1461 * b ≤ r ∧ r2 ≤ 1460 := by omega
  have h3 : c ≤ 3 ∧ 365 * c ≤ r2 ∧ r2 - 365 * c ≤ 365 := by omega
  have h4 : (100 * a + 4 * b + c) / 4 = 25 * a + b := by omega
  have h5 : (100 * a + 4 * b + c) / 100 = a := by omega
  refine ⟨by omega, h3.2.2, ?_, ?_⟩
  · rw [h4, h5]; omega
  · intro hd hy
    have hac : a = 3 ∧ b = 24 ∧ c = 3 := by omega
    omega

theorem yearSplit_spec (doe : Nat) (h : doe < 146097) :
    (yearSplit doe).1 ≤ 399 ∧ (yearSplit doe).2 ≤ 365 ∧
      365 * (yearSplit doe).1 + (yearSplit doe).1 / 4 - (yearSplit doe).1 / 100 +
        (yearSplit doe).2 = doe ∧
      (doe ≤ 146036 → (yearSplit doe).1 = 399 → (yearSplit doe).2 ≤ 305) := by
  simpa only [yearSplit] using
    yearSplit_arith doe _ _ _ _ _ _ _ h rfl rfl rfl rfl rfl rfl rfl

theorem monthSplit_spec (doy : Nat) (h : doy ≤ 365) :
    (5 * doy + 2) / 153 ≤ 11 ∧ (153 * ((5 * doy + 2) / 153) + 2) / 5 ≤ doy ∧
      doy ≤ (153 * ((5 * doy + 2) / 153) + 2) / 5 + 30 ∧
      (10 ≤ (5 * doy + 2) / 153 → 306 ≤ doy) := by
  omega

/-- Evaluation of `daysFromCivil` for a March–December month. -/
theorem daysFromCivil_gt2 (c : Date) (h : 2 < c.m) :
    daysFromCivil c = (c.y / 400) * 146097 +
      ((c.y % 400) * 365 + (c.y % 400) / 4 - (c.y % 400) / 100 +
        ((153 * (c.m - 3) + 2) / 5 + c.d - 1)) := by
  simp only [daysFromCivil]
  rw [if_neg (by omega), if_pos h]

/-- Evaluation of `daysFromCivil` for a January/February month. -/
theorem daysFromCivil_le2 (c : Date) (h : c.m ≤ 2) :
    daysFromCivil c = ((c.y - 1) / 400) * 146097 +
      (((c.y - 1) % 400) * 365 + ((c.y - 1) % 400) / 4 - ((c.y - 1) % 400) / 100 +
        ((153 * (c.m + 9) + 2) / 5 + c.d - 1)) := by
  simp only [daysFromCivil]
  rw [if_pos h, if_neg (by omega)]

theorem div400_small {y : Nat} (h : y ≤ 399) : y / 400 = 0 := by omega

theorem mod400_small {y : Nat} (h : y ≤ 399) : y % 400 = y := by omega

theorem div400_shift (y e : Nat) (h : y ≤ 399) : (y + 400 * e) / 400 = e := by omega

theorem mod400_shift (y e : Nat) (h : y ≤ 399) : (y + 400 * e) % 400 = y := by omega

theorem civilOfDoe_spec (doe : Nat) (h : doe < 146097) :
    daysFromCivil (civilOfDoe doe) = doe ∧
      1 ≤ (civilOfDoe doe).m ∧ (civilOfDoe doe).m ≤ 12 ∧
      1 ≤ (civilOfDoe doe).d ∧ (civilOfDoe doe).d ≤ 31 ∧
      ((civilOfDoe doe).m ≤ 2 → 1 ≤ (civilOfDoe doe).y) ∧
      (civilOfDoe doe).y ≤ 400 ∧ (2 < (civilOfDoe doe).m → (civilOfDoe doe).y ≤ 399) ∧
      (doe ≤ 146036 → (civilOfDoe doe).y ≤ 399) := by
  obtain ⟨hy1, hy2, hy3, hy4⟩ := yearSplit_spec doe h
  obtain ⟨hm1, hm2, hm3, hm4⟩ := monthSplit_spec (yearSplit doe).2 hy2
  by_cases hmp : (5 * (yearSplit doe).2 + 2) / 153 < 10
  · have hcd : civilOfDoe doe =
        ⟨(yearSplit doe).1, (5 * (yearSplit doe).2 + 2) / 153 + 3,
          (yearSplit doe).2 - (153 * ((5 * (yearSplit doe).2 + 2) / 153) + 2) / 5 + 1⟩ := by
      simp only [civilOfDoe]
      rw [if_pos hmp, if_neg (by omega)]
    rw [hcd]
    rw [daysFromCivil_gt2 _ (by dsimp only; omega)]
    dsimp only
    constructor
    · have hmm : (5 * (yearSplit doe).2 + 2) / 153 + 3 - 3 =
          (5 * (yearSplit doe).2 + 2) / 153 := by omega
      rw [hmm, div400_small hy1, mod400_small hy1]
      have hdd : (153 * ((5 * (yearSplit doe).2 + 2) / 153) + 2) / 5 +
          ((yearSplit doe).2 - (153 * ((5 * (yearSplit doe).2 + 2) / 153) + 2) / 5 + 1) - 1 =
          (yearSplit doe).2 := by omega
      rw [hdd]
      omega
    · omega
  · have hcd : civilOfDoe doe =
        ⟨(yearSplit doe).1 + 1, (5 * (yearSplit doe).2 + 2) / 153 - 9,
          (yearSplit doe).2 - (153 * ((5 * (yearSplit doe).2 + 2) / 153) + 2) / 5 + 1⟩ := by
      simp only [civilOfDoe]
      rw [if_neg hmp, if_pos (by omega)]
    rw [hcd]
    rw [daysFromCivil_le2 _ (by dsimp only; omega)]
    dsimp only
    constructor
    · have hmm : (5 * (yearSplit doe).2 + 2) / 153 - 9 + 9 =
          (5 * (yearSplit doe).2 + 2) / 153 := by omega
      have h11 : (yearSplit doe).1 + 1 - 1 = (yearSplit doe).1 := by omega
      rw [hmm, h11, div400_small hy1, mod400_small hy1]
      have hdd : (153 * ((5 * (yearSplit doe).2 + 2) / 153) + 2) / 5 +
          ((yearSplit doe).2 - (153 * ((5 * (yearSplit doe).2 + 2) / 153) + 2) / 5 + 1) - 1 =
          (yearSplit doe).2 := by omega
      rw [hdd]
      omega
    · omega

theorem civil_inv (z : Nat) : daysFromCivil (civilFromDays z) = z := by
  have hdoe : z % 146097 < 146097 := Nat.mod_lt _ (by omega)
  obtain ⟨hrt, hm1, hm2, hd1, hd2, hy1, hy2, hy3, _⟩ := civilOfDoe_spec (z % 146097) hdoe
  simp only [civilFromDays]
  set c := civilOfDoe (z % 146097) with hc
  by_cases hm : c.m ≤ 2
  · rw [daysFromCivil_le2 _ hm] at hrt
    rw [div400_small (by omega), mod400_small (by omega)] at hrt
    rw [daysFromCivil_le2 ⟨c.y + 400 * (z / 146097), c.m, c.d⟩ hm]
    dsimp only
    have hsh : c.y + 400 * (z / 146097) - 1 = (c.y - 1) + 400 * (z / 146097) := by omega
    rw [hsh, div400_shift _ _ (by omega), mod400_shift _ _ (by omega)]
    omega
  · rw [daysFromCivil_gt2 _ (by omega)] at hrt
    rw [div400_small (by omega), mod400_small (by omega)] at hrt
    rw [daysFromCivil_gt2 ⟨c.y + 400 * (z / 146097), c.m, c.d⟩ (by dsimp only; omega)]
    dsimp only
    rw [div400_shift _ _ (by omega), mod400_shift _ _ (by omega)]
    omega

theorem civil_inj {z1 z2 : Nat} (h : civilFromDays z1 = civilFromDays z2) : z1 = z2 := by
  have := civil_inv z1
  rw [h, civil_inv z2] at this
  omega

theorem civil_y_le (z : Nat) (h : z ≤ 3652364) : (civilFromDays z).y ≤ 9999 := by
  have hdoe : z % 146097 < 146097 := Nat.mod_lt _ (by omega)
  obtain ⟨_, _, _, _, _, _, hy2, _, hy4⟩ := civilOfDoe_spec (z % 146097) hdoe
  simp only [civilFromDays]
  omega

theorem civil_m_d_lt (z : Nat) :
    1 ≤ (civilFromDays z).m ∧ (civilFromDays z).m ≤ 12 ∧
      1 ≤ (civilFromDays z).d ∧ (civilFromDays z).d ≤ 31 := by
  have hdoe : z % 146097 < 146097 := Nat.mod_lt _ (by omega)
  obtain ⟨_, hm1, hm2, hd1, hd2, _⟩ := civilOfDoe_spec (z % 146097) hdoe
  simp only [civilFromDays]
  exact ⟨hm1, hm2, hd1, hd2⟩

/-! ### Date formatting: Go `time.Time.Format("2006-01-02")` -/

/-- The character for a decimal digit `n < 10`. -/
def digCh (n : Nat) : Char := Char.ofNat (48 + n)

/-- Two-digit zero-padded decimal (Go layout `01`/`02`), faithful for `n < 100`. -/
def pad2 (n : Nat) : List Char := [digCh (n / 10 % 10), digCh (n % 10)]

/-- Four-digit zero-padded decimal (Go layout `2006`), faithful for `n < 10000`. -/
def pad4 (n : Nat) : List Char :=
  [digCh (n / 1000 % 10), digCh (n / 100 % 10), digCh (n / 10 % 10), digCh (n % 10)]

/-- Go `t.Format("2006-01-02")` for a calendar date. -/
def formatDate (c : Date) : String :=
  ⟨pad4 c.y ++ '-' :: pad2 c.m ++ '-' :: pad2 c.d⟩

/-- Go `t.Format("2006-01-02")` for a day number. -/
def fmtDay (z : Nat) : String := formatDate (civilFromDays z)

theorem digCh_inj : ∀ a, a < 10 → ∀ b, b < 10 → digCh a = digCh b → a = b := by decide

theorem formatDate_inj (c1 c2 : Date) (h1y : c1.y ≤ 9999) (h2y : c2.y ≤ 9999)
    (h1m : c1.m ≤ 99) (h2m : c2.m ≤ 99) (h1d : c1.d ≤ 99) (h2d : c2.d ≤ 99)
    (h : formatDate c1 = formatDate c2) : c1 = c2 := by
  have hd := congrArg String.data h
  simp only [formatDate, pad4, pad2, List.cons_append, List.nil_append,
    List.cons.injEq, and_true] at hd
  obtain ⟨e1, e2, e3, e4, _, e5, e6, _, e7, e8⟩ := hd
  have g1 := digCh_inj _ (by omega) _ (by omega) e1
  have g2 := digCh_inj _ (by omega) _ (by omega) e2
  have g3 := digCh_inj _ (by omega) _ (by omega) e3
  have g4 := digCh_inj _ (by omega) _ (by omega) e4
  have g5 := digCh_inj _ (by omega) _ (by omega) e5
  have g6 := digCh_inj _ (by omega) _ (by omega) e6
  have g7 := digCh_inj _ (by omega) _ (by omega) e7
  have g8 := digCh_inj _ (by omega) _ (by omega) e8
  obtain ⟨y1, m1, d1⟩ := c1
  obtain ⟨y2, m2, d2⟩ := c2
  simp only at g1 g2 g3 g4 g5 g6 g7 g8 h1y h2y h1m h2m h1d h2d ⊢
  congr 1 <;> omega

theorem fmtDay_inj {z1 z2 : Nat} (h1 : z1 ≤ 3652364) (h2 : z2 ≤ 3652364)
    (h : fmtDay z1 = fmtDay z2) : z1 = z2 := by
  apply civil_inj
  obtain ⟨hm1, hm2, hd1, hd2⟩ := civil_m_d_lt z1
  obtain ⟨hm1', hm2', hd1', hd2'⟩ := civil_m_d_lt z2
  exact formatDate_inj _ _ (civil_y_le z1 h1) (civil_y_le z2 h2)
    (by omega) (by omega) (by omega) (by omega) h

/-- The first character of a formatted date is a decimal digit, never `.`. -/
theorem fmtDay_head (z : Nat) :
    (fmtDay z).data.take 1 = [digCh ((civilFromDays z).y / 1000 % 10)] := by
  simp only [fmtDay, formatDate, pad4, List.cons_append, List.take_succ_cons, List.take_zero]

/-! ### Strings and paths: Go `strings` and `path/filepath` helpers -/

/-- Go `strings.HasPrefix s p`: `len(s) >= len(p) && s[0:len(p)] == p`. -/
def goStartsWith (s p : String) : Bool :=
  decide (s.data.take p.data.length = p.data)

/-- Go `strings.HasSuffix s p`: `len(s) >= len(p) && s[len(s)-len(p):] == p`. -/
def goEndsWith (s p : String) : Bool :=
  decide (p.data.length ≤ s.data.length) &&
    decide (s.data.drop (s.data.length - p.data.length) = p.data)

/-- Go `filepath.Base` for unix paths: strip trailing slashes, then take the
part after the last slash; `""` gives `"."`, all-slash paths give `"/"`. -/
def goBase (p : String) : String :=
  match p.data.reverse.dropWhile (fun c => c = '/') with
  | [] => if p.data = [] then "." else "/"
  | l => ⟨(l.takeWhile (fun c => c ≠ '/')).reverse⟩

/-- Go `filepath.IsAbs` for unix paths: `strings.HasPrefix(path, "/")`. -/
def isAbs (p : String) : Bool := goStartsWith p "/"

/-- The backtracking loop of Go `filepath.Clean`'s `..` case:
`for out.w > dotdot && out.index(out.w) != '/' { out.w-- }`.
`out` is the output buffer reversed; `c` is the character just popped. -/
def backLoop (dd : Nat) : Char → List Char → List Char
  | _, [] => []
  | c, x :: r => if dd < (x :: r).length && !(c == '/') then backLoop dd x r else x :: r

/-- The `..` element handling of Go `filepath.Clean`: backtrack when possible,
append a literal `..` when not rooted, else ignore.  Returns the new reversed
output buffer and the new `dotdot` mark. -/
def applyDotDot (out : List Char) (dd : Nat) (rooted : Bool) : List Char × Nat :=
  if dd < out.length then
    match out with
    | [] => (out, dd)
    | c :: r => (backLoop dd c r, dd)
  else if !rooted then
    let out2 := if out.length == 0 then '.' :: '.' :: out else '.' :: '.' :: '/' :: out
    (out2, out2.length)
  else (out, dd)

/-- The main loop of Go `filepath.Clean` (unix).  The first `Bool` is the
`rooted` flag; the second is true at a path-element boundary and false while
copying a segment.  The output buffer is kept reversed. -/
def cleanLoop (rooted : Bool) : Bool → List Char → List Char → Nat → List Char
  | _, [], out, _ => out
  | false, ch :: rest, out, dd =>
    if ch == '/' then cleanLoop rooted true rest out dd
    else cleanLoop rooted false rest (ch :: out) dd
  | true, '/' :: rest, out, dd => cleanLoop rooted true rest out dd
  | true, ['.'], out, _ => out
  | true, '.' :: '/' :: rest, out, dd => cleanLoop rooted true rest out dd
  | true, ['.', '.'], out, dd => (applyDotDot out dd rooted).1
  | true, '.' :: '.' :: '/' :: rest, out, dd =>
    cleanLoop rooted true rest (applyDotDot out dd rooted).1 (applyDotDot out dd rooted).2
  | true, ch :: rest, out, dd =>
    cleanLoop rooted false rest
      (ch :: (if rooted && !(out.length == 1) || !rooted && !(out.length == 0)
        then '/' :: out else out)) dd

/-- Go `filepath.Clean` for unix paths. -/
def cleanPath (p : String) : String :=
  match p.data with
  | [] => "."
  | c :: cs =>
    let rooted := c == '/'
    let out := cleanLoop rooted true (c :: cs)
      (if rooted then ['/'] else []) (if rooted then 1 else 0)
    if out.length == 0 then "." else ⟨out.reverse⟩

/-! ### The writer model (embedding of `dailyrotate.go`)

The filesystem is the listing of the directory containing the live file: an
association list from entry name to modification day.  Fallible operations
consult an explicit environment of failure outcomes. -/

/-- Errors surfaced by the package: the two validation errors from `New`,
wrapped I/O failures, and Go's `os.ErrInvalid` (returned by
`(*os.File).Write` on a nil receiver). -/
inductive GoErr where
  | invalidPath (p : String)
  | invalidMaxAge (ma : Int)
  | ioError (op : String)
  | errInvalid
deriving DecidableEq

/-- Failure outcomes for the fallible filesystem operations. -/
structure Env where
  closeErr : Bool
  openErr : Bool
  renameErr : Bool
  readDirErr : Bool
  writeErr : Bool
  removeErr : String → Bool

/-- The environment in which every operation succeeds. -/
def noErrEnv : Env :=
  { closeErr := false, openErr := false, renameErr := false, readDirErr := false,
    writeErr := false, removeErr := fun _ => false }

/-- The `RotateWriter` struct: `FilePath`, `MaxAge`, the open-file slot
(`nil` modelled as `none`) and the internal `time` field (a day number).
The mutex only serializes calls and has no sequential behavior. -/
structure RotateWriter where
  FilePath : String
  MaxAge : Int
  file : Option Unit
  time : Nat
deriving DecidableEq

/-- Directory lookup: `os.Stat` of an entry name succeeds iff the entry is
present, and reports its modification day. -/
def lookupFile : List (String × Nat) → String → Option Nat
  | [], _ => none
  | (n, mt) :: rest, s => if n = s then some mt else lookupFile rest s

/-- Remove every entry with the given name. -/
def eraseFile (dir : List (String × Nat)) (k : String) : List (String × Nat) :=
  dir.filter (fun e => !(e.1 == k))

/-- `os.Rename src dst` within the directory: the destination entry gets the
source's modification time; an existing destination is overwritten. -/
def renameFile (dir : List (String × Nat)) (src dst : String) : List (String × Nat) :=
  match lookupFile dir src with
  | none => dir
  | some mt => (dst, mt) :: eraseFile (eraseFile dir src) dst

/-- `os.OpenFile(name, O_APPEND|O_CREATE|O_WRONLY, 0644)`: creates the entry
(with the current day as modification time) iff it does not exist. -/
def openFileDir (dir : List (String × Nat)) (b : String) (now : Nat) : List (String × Nat) :=
  match lookupFile dir b with
  | some _ => dir
  | none => (b, now) :: dir

/-- `(*os.File).Write` (Go `os` package): a nil receiver fails with
`os.ErrInvalid`; otherwise the write succeeds unless the environment says
the underlying syscall fails. -/
def fileWrite (file : Option Unit) (env : Env) (n : Nat) : Option GoErr × Nat :=
  match file with
  | none => (some GoErr.errInvalid, 0)
  | some _ => if env.writeErr then (some (GoErr.ioError "write"), 0) else (none, n)

/-- `func New(path string, maxAge int) (*RotateWriter, error)`:
clean the path, validate absoluteness, validate `maxAge >= -1`, then open
the file in append/create mode.  Returns the construction result and the
directory contents afterwards. -/
def New (env : Env) (dir : List (String × Nat)) (p : String) (ma : Int) (now : Nat) :
    Except GoErr RotateWriter × List (String × Nat) :=
  let p' := cleanPath p
  if !(isAbs p') then (Except.error (GoErr.invalidPath p'), dir)
  else if ma < -1 then (Except.error (GoErr.invalidMaxAge ma), dir)
  else if env.openErr then (Except.error (GoErr.ioError "open"), dir)
  else (Except.ok { FilePath := p', MaxAge := ma, file := some (), time := now },
    openFileDir dir (goBase p') now)

/-- `func (rw *RotateWriter) Write(output []byte) (int, error)`: a raw
passthrough to `rw.file.Write` under the lock. -/
def Write (rw : RotateWriter) (env : Env) (n : Nat) : Option GoErr × Nat :=
  fileWrite rw.file env n

/-- `func (rw *RotateWriter) ShouldRotate() bool`: compare today's date with
the internal time's date; when equal, also compare the live file's
modification date (when `os.Stat` succeeds) with the internal time's date. -/
def ShouldRotate (rw : RotateWriter) (dir : List (String × Nat)) (now : Nat) : Bool :=
  let n := civilFromDays now
  let r := civilFromDays rw.time
  if n.y ≠ r.y ∨ n.m ≠ r.m ∨ n.d ≠ r.d then true
  else
    match lookupFile dir (goBase rw.FilePath) with
    | some mt =>
      let f := civilFromDays mt
      if f.y ≠ r.y ∨ f.m ≠ r.m ∨ f.d ≠ r.d then true else false
    | none => false

/-- The authorized-file set of `cleanOldFiles`: for `i := 1; i <= rw.MaxAge;
i++`, the name `time.Now().AddDate(0, 0, -i).Format("2006-01-02") + "-" + bname`. -/
def autList (ma : Int) (now : Nat) (bname : String) : List String :=
  (List.range ma.toNat).map (fun k => fmtDay (now - (k + 1)) ++ "-" ++ bname)

/-- The deletion loop of `cleanOldFiles` over the directory listing: skip
hidden entries, the live basename, names not ending in the basename, and
authorized names; remove everything else, aborting on a failed remove. -/
def sweepFiles (env : Env) (bname : String) (aut : List String) :
    List (String × Nat) → Option GoErr × List (String × Nat)
  | [] => (none, [])
  | (fn, mt) :: rest =>
    if goStartsWith fn "." || fn == bname || !(goEndsWith fn bname) then
      let r := sweepFiles env bname aut rest
      (r.1, (fn, mt) :: r.2)
    else if aut.contains fn then
      let r := sweepFiles env bname aut rest
      (r.1, (fn, mt) :: r.2)
    else if env.removeErr fn then (some (GoErr.ioError "remove"), (fn, mt) :: rest)
    else sweepFiles env bname aut rest

/-- `func (rw *RotateWriter) cleanOldFiles() error`: build the authorized
set, list the directory, and sweep. -/
def cleanOldFiles (env : Env) (rw : RotateWriter) (dir : List (String × Nat)) (now : Nat) :
    Option GoErr × List (String × Nat) :=
  let bname := goBase rw.FilePath
  let aut := autList rw.MaxAge now bname
  if env.readDirErr then (some (GoErr.ioError "readdir"), dir)
  else sweepFiles env bname aut dir

/-- Steps 3–5 of `Rotate`: reopen the live file, clean old files when
`rw.MaxAge > -1`, and update `rw.time` on success. -/
def rotateOpen (env : Env) (rw : RotateWriter) (dir : List (String × Nat)) (now : Nat) :
    Option GoErr × RotateWriter × List (String × Nat) :=
  if env.openErr then (some (GoErr.ioError "open"), rw, dir)
  else
    let rw' : RotateWriter := { rw with file := some () }
    let dir' := openFileDir dir (goBase rw.FilePath) now
    if rw.MaxAge > -1 then
      match cleanOldFiles env rw' dir' now with
      | (some e, dir2) => (some e, rw', dir2)
      | (none, dir2) => (none, { rw' with time := now }, dir2)
    else (none, { rw' with time := now }, dir')

/-- Step 2 of `Rotate`: stat the live file; when present, rename it to
`<modtime as YYYY-MM-DD>-<basename>` in the same directory; then continue. -/
def rotateRename (env : Env) (rw : RotateWriter) (dir : List (String × Nat)) (now : Nat) :
    Option GoErr × RotateWriter × List (String × Nat) :=
  let b := goBase rw.FilePath
  match lookupFile dir b with
  | some mt =>
    if env.renameErr then (some (GoErr.ioError "rename"), rw, dir)
    else rotateOpen env rw (renameFile dir b (fmtDay mt ++ "-" ++ b)) now
  | none => rotateOpen env rw dir now

/-- `func (rw *RotateWriter) Rotate() error`: close the open file if any
(aborting on failure, before the `rw.file = nil` assignment), then rename,
reopen, clean, and update the internal time.  Returns the error outcome and
the writer and directory state afterwards. -/
def Rotate (env : Env) (rw : RotateWriter) (dir : List (String × Nat)) (now : Nat) :
    Option GoErr × RotateWriter × List (String × Nat) :=
  match rw.file with
  | some _ =>
    if env.closeErr then (some (GoErr.ioError "close"), rw, dir)
    else rotateRename env { rw with file := none } dir now
  | none => rotateRename env rw dir now

/-- `func (rw *RotateWriter) RotateSafe() error`: rotate only when
`ShouldRotate()` reports true. -/
def RotateSafe (env : Env) (rw : RotateWriter) (dir : List (String × Nat)) (now : Nat) :
    Option GoErr × RotateWriter × List (String × Nat) :=
  if ShouldRotate rw dir now then Rotate env rw dir now else (none, rw, dir)

/-- `func (rw *RotateWriter) RotateWrite(output []byte) (int, error)`:
`RotateSafe`, then `Write`; a failed rotation skips the write. -/
def RotateWrite (env : Env) (rw : RotateWriter) (dir : List (String × Nat)) (now : Nat)
    (n : Nat) : Option GoErr × Nat × RotateWriter × List (String × Nat) :=
  match RotateSafe env rw dir now with
  | (some e, rw', dir') => (some e, 0, rw', dir')
  | (none, rw', dir') =>
    let w := Write rw' env n
    (w.1, w.2, rw', dir')

/-! ### Supporting lemmas -/

theorem str_ext {s t : String} (h : s.data = t.data) : s = t := by
  cases s; cases t; cases h; rfl

theorem goEndsWith_append (u v : String) : goEndsWith (u ++ v) v = true := by
  simp only [goEndsWith, String.data_append, List.length_append, Bool.and_eq_true,
    decide_eq_true_eq]
  constructor
  · omega
  · have h1 : u.data.length + v.data.length - v.data.length = u.data.length := by omega
    rw [h1, List.drop_left]

theorem append_ne_right (u v : String) (hu : u.data ≠ []) : u ++ v ≠ v := by
  intro h
  have hd := congrArg String.data h
  rw [String.data_append] at hd
  have hl := congrArg List.length hd
  rw [List.length_append] at hl
  have : u.data.length = 0 := by omega
  exact hu (List.eq_nil_of_length_eq_zero this)

theorem fmtDay_data (z : Nat) :
    (fmtDay z).data = digCh ((civilFromDays z).y / 1000 % 10) ::
      (digCh ((civilFromDays z).y / 100 % 10) :: digCh ((civilFromDays z).y / 10 % 10) ::
        digCh ((civilFromDays z).y % 10) :: '-' :: pad2 (civilFromDays z).m ++
        '-' :: pad2 (civilFromDays z).d) := by
  simp only [fmtDay, formatDate, pad4, List.cons_append, List.nil_append]

theorem digCh_ne_dot : ∀ k, k < 10 → digCh k ≠ '.' := by decide

theorem goStartsWith_archive_dot (z : Nat) (s : String) :
    goStartsWith (fmtDay z ++ s) "." = false := by
  simp only [goStartsWith, String.data_append, fmtDay_data, List.cons_append]
  apply decide_eq_false
  intro h
  simp only [List.length_cons, List.length_nil, Nat.zero_add, List.take_succ_cons,
    List.take_zero, List.cons.injEq, and_true] at h
  exact digCh_ne_dot _ (Nat.mod_lt _ (by omega)) h

theorem fmtDay_ne_nil (z : Nat) : (fmtDay z).data ≠ [] := by
  rw [fmtDay_data]
  simp

theorem archive_ne_base (z : Nat) (b : String) : fmtDay z ++ "-" ++ b ≠ b := by
  have h : (fmtDay z ++ "-").data ≠ [] := by
    rw [String.data_append]
    intro h
    exact fmtDay_ne_nil z (List.eq_nil_of_length_eq_zero (by
      have := congrArg List.length h
      simp only [List.length_append, List.length_nil] at this
      omega))
  exact append_ne_right _ _ h

theorem archive_name_inj {x z : Nat} (b : String) (hx : x ≤ 3652364) (hz : z ≤ 3652364)
    (h : fmtDay x ++ "-" ++ b = fmtDay z ++ "-" ++ b) : x = z := by
  apply fmtDay_inj hx hz
  have hd := congrArg String.data h
  rw [String.data_append, String.data_append, String.data_append, String.data_append] at hd
  exact str_ext (List.append_cancel_right (List.append_cancel_right hd))

theorem mem_autList_iff {ma : Int} {now : Nat} {b name : String} :
    (autList ma now b).contains name = true ↔
      ∃ k, k < ma.toNat ∧ fmtDay (now - (k + 1)) ++ "-" ++ b = name := by
  simp only [autList, List.contains, List.elem_iff, List.mem_map, List.mem_range]

theorem lookup_eraseFile_self (dir : List (String × Nat)) (k : String) :
    lookupFile (eraseFile dir k) k = none := by
  induction dir with
  | nil => rfl
  | cons e rest ih =>
    obtain ⟨n, mt⟩ := e
    by_cases hn : n = k
    · simpa [eraseFile, hn] using ih
    · simpa [eraseFile, hn, lookupFile] using ih

theorem lookup_eraseFile_other (dir : List (String × Nat)) {k k2 : String} (h : k ≠ k2) :
    lookupFile (eraseFile dir k2) k = lookupFile dir k := by
  induction dir with
  | nil => rfl
  | cons e rest ih =>
    obtain ⟨n, mt⟩ := e
    by_cases hn : n = k2
    · have hb : (!(n == k2)) = false := by simp [hn]
      have hnk : ¬ n = k := by
        rw [hn]
        intro he
        exact h he.symm
      simp only [eraseFile, List.filter_cons, hb, Bool.false_eq_true, if_false, lookupFile,
        if_neg hnk]
      simpa only [eraseFile] using ih
    · have hb : (!(n == k2)) = true := by simp [hn]
      simp only [eraseFile, List.filter_cons, hb, if_true, lookupFile]
      by_cases hk : n = k
      · simp [hk]
      · simp only [if_neg hk]
        simpa only [eraseFile] using ih

theorem mem_eraseFile {dir : List (String × Nat)} {e : String × Nat} {k : String}
    (hmem : e ∈ dir) (hne : e.1 ≠ k) : e ∈ eraseFile dir k := by
  apply List.mem_filter.2
  exact ⟨hmem, by simpa using hne⟩

/-- With no remove failures, the sweep succeeds and acts as a filter keeping
exactly the entries the loop skips. -/
theorem sweepFiles_noerr (env : Env) (bname : String) (aut : List String)
    (dir : List (String × Nat)) (henv : ∀ s, env.removeErr s = false) :
    sweepFiles env bname aut dir = (none, dir.filter (fun e =>
      goStartsWith e.1 "." || e.1 == bname || !(goEndsWith e.1 bname) || aut.contains e.1)) := by
  induction dir with
  | nil => rfl
  | cons e rest ih =>
    obtain ⟨fn, mt⟩ := e
    simp only [sweepFiles, ih, List.filter_cons]
    by_cases h1 : (goStartsWith fn "." || fn == bname || !(goEndsWith fn bname)) = true
    · have hc : (goStartsWith fn "." || fn == bname || !(goEndsWith fn bname)
          || aut.contains fn) = true := by
        simp only [Bool.or_eq_true] at h1 ⊢
        tauto
      rw [if_pos h1]
      simp only [hc, if_true]
    · have h1' : (goStartsWith fn "." || fn == bname || !(goEndsWith fn bname)) = false := by
        simp only [Bool.not_eq_true] at h1
        exact h1
      by_cases h2 : aut.contains fn = true
      · have hc : (goStartsWith fn "." || fn == bname || !(goEndsWith fn bname)
            || aut.contains fn) = true := by
          simp only [Bool.or_eq_true] at h2 ⊢
          tauto
        rw [if_neg h1, if_pos h2]
        simp only [hc, if_true]
      · have h2' : aut.contains fn = false := by
          simp only [Bool.not_eq_true] at h2
          exact h2
        have hc : (goStartsWith fn "." || fn == bname || !(goEndsWith fn bname)
            || aut.contains fn) = false := by
          rw [h1', h2']
          rfl
        rw [if_neg h1, if_neg h2, henv fn, if_neg (by simp)]
        simp only [hc, Bool.false_eq_true, if_false]

/-- Entries the loop skips survive the sweep in every environment, even when
a later remove fails. -/
theorem sweepFiles_keep (env : Env) (bname : String) (aut : List String)
    (dir : List (String × Nat)) (fn : String) (mt : Nat) (hmem : (fn, mt) ∈ dir)
    (hskip : (goStartsWith fn "." || fn == bname || !(goEndsWith fn bname)
      || aut.contains fn) = true) :
    (fn, mt) ∈ (sweepFiles env bname aut dir).2 := by
  induction dir with
  | nil => cases hmem
  | cons e rest ih =>
    obtain ⟨g, gmt⟩ := e
    rcases List.mem_cons.1 hmem with he | hrest
    · injection he with h1 h2
      subst h1
      subst h2
      simp only [sweepFiles]
      by_cases h1 : (goStartsWith fn "." || fn == bname || !(goEndsWith fn bname)) = true
      · rw [if_pos h1]; exact List.mem_cons_self _ _
      · rw [if_neg h1]
        have h2 : aut.contains fn = true := by
          simp only [Bool.or_eq_true] at hskip h1
          tauto
        rw [if_pos h2]; exact List.mem_cons_self _ _
    · simp only [sweepFiles]
      split
      · exact List.mem_cons_of_mem _ (ih hrest)
      · split
        · exact List.mem_cons_of_mem _ (ih hrest)
        · split
          · exact List.mem_cons_of_mem _ hrest
          · exact ih hrest

/-- The sweep never disturbs entries carrying the live basename. -/
theorem sweep_lookup_base (env : Env) (bname : String) (aut : List String)
    (dir : List (String × Nat)) :
    lookupFile (sweepFiles env bname aut dir).2 bname = lookupFile dir bname := by
  induction dir with
  | nil => rfl
  | cons e rest ih =>
    obtain ⟨g, gmt⟩ := e
    by_cases hg : g = bname
    · simp only [sweepFiles]
      rw [if_pos (by simp [hg])]
      simp only [lookupFile, if_pos hg]
    · simp only [sweepFiles]
      split
      · simp only [lookupFile, if_neg hg]
        exact ih
      · split
        · simp only [lookupFile, if_neg hg]
          exact ih
        · split
          · rfl
          · rw [ih]
            simp only [lookupFile, if_neg hg]

theorem lookup_renameFile_self {dir : List (String × Nat)} {b dst : String}
    (hne : dst ≠ b) : lookupFile (renameFile dir b dst) b = none := by
  unfold renameFile
  cases hlk : lookupFile dir b with
  | none => exact hlk
  | some mt =>
    simp only [lookupFile, if_neg hne]
    rw [lookup_eraseFile_other _ (fun he => hne he.symm), lookup_eraseFile_self]

theorem lookup_renameFile_dst {dir : List (String × Nat)} {src dst : String} {mt : Nat}
    (hlk : lookupFile dir src = some mt) :
    lookupFile (renameFile dir src dst) dst = some mt := by
  unfold renameFile
  rw [hlk]
  simp [lookupFile]

/-- State after a successful `Rotate` starting from the reopen step. -/
theorem rotateOpen_success (env : Env) (rw : RotateWriter) (dir : List (String × Nat))
    (now : Nat) (rw' : RotateWriter) (dir' : List (String × Nat))
    (hb : lookupFile dir (goBase rw.FilePath) = none)
    (h : rotateOpen env rw dir now = (none, rw', dir')) :
    rw' = { rw with file := some (), time := now } ∧
      lookupFile dir' (goBase rw.FilePath) = some now := by
  unfold rotateOpen at h
  by_cases ho : env.openErr = true
  · rw [if_pos ho] at h
    simp at h
  · rw [if_neg ho] at h
    dsimp only at h
    have hopen : openFileDir dir (goBase rw.FilePath) now =
        (goBase rw.FilePath, now) :: dir := by
      unfold openFileDir
      rw [hb]
    rw [hopen] at h
    by_cases hma : rw.MaxAge > -1
    · rw [if_pos hma] at h
      rcases hcl : cleanOldFiles env { rw with file := some () }
        ((goBase rw.FilePath, now) :: dir) now with ⟨oe, d2⟩
      cases oe with
      | some e =>
        rw [hcl] at h
        simp at h
      | none =>
        rw [hcl] at h
        dsimp only at h
        simp only [Prod.mk.injEq, true_and] at h
        obtain ⟨h1, h2⟩ := h
        refine ⟨h1.symm, ?_⟩
        rw [← h2]
        unfold cleanOldFiles at hcl
        by_cases hrd : env.readDirErr = true
        · rw [if_pos hrd] at hcl
          simp at hcl
        · rw [if_neg hrd] at hcl
          dsimp only at hcl
          have hd2 := congrArg Prod.snd hcl
          dsimp only at hd2
          rw [← hd2, sweep_lookup_base]
          simp [lookupFile]
    · rw [if_neg hma] at h
      simp only [Prod.mk.injEq, true_and] at h
      obtain ⟨h1, h2⟩ := h
      refine ⟨h1.symm, ?_⟩
      rw [← h2]
      simp [lookupFile]

/-- State after a successful `Rotate` starting from the rename step. -/
theorem rotateRename_success (env : Env) (rw : RotateWriter) (dir : List (String × Nat))
    (now : Nat) (rw' : RotateWriter) (dir' : List (String × Nat))
    (h : rotateRename env rw dir now = (none, rw', dir')) :
    rw' = { rw with file := some (), time := now } ∧
      lookupFile dir' (goBase rw.FilePath) = some now := by
  unfold rotateRename at h
  dsimp only at h
  cases hlk : lookupFile dir (goBase rw.FilePath) with
  | none =>
    rw [hlk] at h
    dsimp only at h
    exact rotateOpen_success env rw dir now rw' dir' hlk h
  | some mt =>
    rw [hlk] at h
    dsimp only at h
    by_cases hre : env.renameErr = true
    · rw [if_pos hre] at h
      simp at h
    · rw [if_neg hre] at h
      exact rotateOpen_success env rw _ now rw' dir'
        (lookup_renameFile_self (archive_ne_base mt (goBase rw.FilePath))) h

/-- State of the writer and directory after a successful `Rotate`: the
internal time is `now`, the handle is open, and the live file exists with
modification day `now`. -/
theorem rotate_success_state (env : Env) (rw : RotateWriter) (dir : List (String × Nat))
    (now : Nat) (rw' : RotateWriter) (dir' : List (String × Nat))
    (h : Rotate env rw dir now = (none, rw', dir')) :
    rw' = { rw with file := some (), time := now } ∧
      lookupFile dir' (goBase rw.FilePath) = some now := by
  unfold Rotate at h
  cases hf : rw.file with
  | none =>
    rw [hf] at h
    have := rotateRename_success env rw dir now rw' dir' h
    exact this
  | some u =>
    rw [hf] at h
    by_cases hc : env.closeErr = true
    · rw [if_pos hc] at h
      simp at h
    · rw [if_neg hc] at h
      obtain ⟨h1, h2⟩ := rotateRename_success env { rw with file := none } dir now rw' dir' h
      exact ⟨h1, h2⟩

theorem Date_ext {a b : Date} (hy : a.y = b.y) (hm : a.m = b.m) (hd : a.d = b.d) :
    a = b := by
  cases a
  cases b
  cases hy
  cases hm
  cases hd
  rfl

/-- The directory state `Rotate` hands to the cleanup sweep: the live file
renamed to its dated archive name (when present), then the live file
recreated. -/
def rotatePreClean (rw : RotateWriter) (dir : List (String × Nat)) (now : Nat) :
    List (String × Nat) :=
  let b := goBase rw.FilePath
  let dir1 :=
    match lookupFile dir b with
    | some mt => renameFile dir b (fmtDay mt ++ "-" ++ b)
    | none => dir
  openFileDir dir1 b now

/-- Reduction of `Rotate` when close, rename and open all succeed. -/
theorem rotate_open_ok (env : Env) (rw : RotateWriter) (dir : List (String × Nat))
    (now : Nat) (hc : env.closeErr = false) (ho : env.openErr = false)
    (hre : env.renameErr = false) :
    Rotate env rw dir now =
      (if rw.MaxAge > -1 then
        match cleanOldFiles env { rw with file := some () } (rotatePreClean rw dir now) now with
        | (some e, d2) => (some e, { rw with file := some () }, d2)
        | (none, d2) => (none, { rw with file := some (), time := now }, d2)
      else (none, { rw with file := some (), time := now }, rotatePreClean rw dir now)) := by
  unfold Rotate rotateRename rotateOpen rotatePreClean
  cases hf : rw.file with
  | some u =>
    rw [hc, hre, ho]
    simp only [Bool.false_eq_true, if_false]
    cases hlk : lookupFile dir (goBase rw.FilePath) with
    | some mt => rfl
    | none => rfl
  | none =>
    rw [hre, ho]
    simp only [Bool.false_eq_true, if_false]
    cases hlk : lookupFile dir (goBase rw.FilePath) with
    | some mt => rfl
    | none => rfl

theorem mem_openFileDir {dir : List (String × Nat)} {e : String × Nat} {b : String}
    {now : Nat} (hmem : e ∈ dir) : e ∈ openFileDir dir b now := by
  unfold openFileDir
  cases lookupFile dir b with
  | some mt => exact hmem
  | none => exact List.mem_cons_of_mem _ hmem

/-- `rotatePreClean` preserves every entry name other than the live basename
(the live file itself is renamed to its archive name and recreated). -/
theorem rotatePreClean_preserves (rw : RotateWriter) (dir : List (String × Nat))
    (now : Nat) (n : String) (mt : Nat) (hmem : (n, mt) ∈ dir)
    (hne : n ≠ goBase rw.FilePath) :
    ∃ mt', (n, mt') ∈ rotatePreClean rw dir now := by
  unfold rotatePreClean
  dsimp only
  cases hlk : lookupFile dir (goBase rw.FilePath) with
  | none => exact ⟨mt, mem_openFileDir hmem⟩
  | some m0 =>
    dsimp only
    by_cases harch : n = fmtDay m0 ++ "-" ++ goBase rw.FilePath
    · refine ⟨m0, mem_openFileDir ?_⟩
      unfold renameFile
      rw [hlk]
      dsimp only
      rw [harch]
      exact List.mem_cons_self _ _
    · refine ⟨mt, mem_openFileDir ?_⟩
      unfold renameFile
      rw [hlk]
      dsimp only
      exact List.mem_cons_of_mem _ (mem_eraseFile (mem_eraseFile hmem hne) harch)

theorem shouldRotate_false_of (rw : RotateWriter) (dir : List (String × Nat)) (now : Nat)
    (ht : rw.time = now) (hl : lookupFile dir (goBase rw.FilePath) = some now) :
    ShouldRotate rw dir now = false := by
  unfold ShouldRotate
  dsimp only
  rw [ht, hl, if_neg (by simp)]
  dsimp only
  rw [if_neg (by simp)]

/-! ### The claims -/

/-- C2: `ShouldRotate` returns true if and only if (1) the calendar date of
now differs from the calendar date of the internal `time` field, or (2) stat
of the live path succeeds and the file's modification date differs from the
internal time's calendar date.  Being a pure function of the writer, the
directory and the clock, it mutates no writer state. -/
theorem claim_C2 (rw : RotateWriter) (dir : List (String × Nat)) (now : Nat) :
    ShouldRotate rw dir now = true ↔
      (civilFromDays now ≠ civilFromDays rw.time ∨
        ∃ mt, lookupFile dir (goBase rw.FilePath) = some mt ∧
          civilFromDays mt ≠ civilFromDays rw.time) := by
  unfold ShouldRotate
  dsimp only
  by_cases hd1 : (civilFromDays now).y ≠ (civilFromDays rw.time).y ∨
      (civilFromDays now).m ≠ (civilFromDays rw.time).m ∨
      (civilFromDays now).d ≠ (civilFromDays rw.time).d
  · rw [if_pos hd1]
    simp only [true_iff]
    left
    intro he
    rw [he] at hd1
    tauto
  · rw [if_neg hd1]
    push_neg at hd1
    have heq : civilFromDays now = civilFromDays rw.time :=
      Date_ext hd1.1 hd1.2.1 hd1.2.2
    cases hlk : lookupFile dir (goBase rw.FilePath) with
    | none =>
      dsimp only
      constructor
      · intro h
        cases h
      · rintro (hne | ⟨mt, hm, _⟩)
        · exact absurd heq hne
        · cases hm
    | some mt =>
      dsimp only
      by_cases hd2 : (civilFromDays mt).y ≠ (civilFromDays rw.time).y ∨
          (civilFromDays mt).m ≠ (civilFromDays rw.time).m ∨
          (civilFromDays mt).d ≠ (civilFromDays rw.time).d
      · rw [if_pos hd2]
        simp only [true_iff]
        right
        refine ⟨mt, rfl, ?_⟩
        intro he
        rw [he] at hd2
        tauto
      · rw [if_neg hd2]
        push_neg at hd2
        have heq2 : civilFromDays mt = civilFromDays rw.time :=
          Date_ext hd2.1 hd2.2.1 hd2.2.2
        constructor
        · intro h
          cases h
        · rintro (hne | ⟨mt', hm, hne'⟩)
          · exact absurd heq hne
          · injection hm with hm
            rw [← hm] at hne'
            exact absurd heq2 hne'

/-- C4 counterexample: when closing the current handle fails, `Rotate`
aborts with the close error but the writer is NOT left in the 'none' handle
state — the `file` field still holds the old handle, because the Go code
returns before the `rw.file = nil` assignment. -/
theorem claim_C4_counterexample :
    (Rotate { noErrEnv with closeErr := true }
        { FilePath := "/tmp/app.log", MaxAge := 3, file := some (), time := 740205 }
        [("app.log", 740200)] 740205).1 = some (GoErr.ioError "close") ∧
      (Rotate { noErrEnv with closeErr := true }
        { FilePath := "/tmp/app.log", MaxAge := 3, file := some (), time := 740205 }
        [("app.log", 740200)] 740205).2.1.file ≠ none := by
  constructor
  · rfl
  · intro h
    cases h

/-- C4 (amended): for every writer with an open handle, if closing it fails
then `Rotate` aborts returning that error, and the writer and directory are
left entirely unchanged — in particular the handle field still holds the old
(now possibly half-closed) handle rather than the 'none' state; the field is
set to `none` only after a successful close. -/
theorem claim_C4 (env : Env) (rw : RotateWriter) (dir : List (String × Nat)) (now : Nat)
    (hf : rw.file = some ()) (hc : env.closeErr = true) :
    Rotate env rw dir now = (some (GoErr.ioError "close"), rw, dir) := by
  unfold Rotate
  rw [hf]
  dsimp only
  rw [if_pos hc]

theorem claim_C4_witness :
    Rotate { noErrEnv with closeErr := true }
        { FilePath := "/tmp/app.log", MaxAge := 3, file := some (), time := 740205 }
        [("app.log", 740200)] 740205 =
      (some (GoErr.ioError "close"),
        { FilePath := "/tmp/app.log", MaxAge := 3, file := some (), time := 740205 },
        [("app.log", 740200)]) :=
  claim_C4 _ _ _ _ rfl rfl

/-- C7: the constructor cleans the path and fails with the invalid-path
error when the cleaned path is not absolute; otherwise it fails with the
invalid-retention error when `maxAge < -1`; otherwise it opens the live file
in append/create mode and returns a writer whose internal time is the
construction time.  On either validation failure the directory is untouched
(no file is opened). -/
theorem claim_C7 (env : Env) (dir : List (String × Nat)) (p : String) (ma : Int) (now : Nat) :
    (isAbs (cleanPath p) = false →
      New env dir p ma now = (Except.error (GoErr.invalidPath (cleanPath p)), dir)) ∧
    (isAbs (cleanPath p) = true → ma < -1 →
      New env dir p ma now = (Except.error (GoErr.invalidMaxAge ma), dir)) ∧
    (isAbs (cleanPath p) = true → -1 ≤ ma → env.openErr = false →
      New env dir p ma now =
        (Except.ok { FilePath := cleanPath p, MaxAge := ma, file := some (), time := now },
          openFileDir dir (goBase (cleanPath p)) now)) := by
  refine ⟨?_, ?_, ?_⟩
  · intro h
    unfold New
    dsimp only
    rw [if_pos (by rw [h]; rfl)]
  · intro h hma
    unfold New
    dsimp only
    rw [if_neg (by rw [h]; simp), if_pos hma]
  · intro h hma ho
    unfold New
    dsimp only
    rw [if_neg (by rw [h]; simp), if_neg (by omega), if_neg (by rw [ho]; simp)]

theorem claim_C7_witness :
    New noErrEnv [] "tmp/x.log" 3 740205 =
      (Except.error (GoErr.invalidPath "tmp/x.log"), []) ∧
    New noErrEnv [] "/tmp/x.log" (-2) 740205 =
      (Except.error (GoErr.invalidMaxAge (-2)), []) ∧
    New noErrEnv [] "/tmp/x.log" 3 740205 =
      (Except.ok { FilePath := "/tmp/x.log", MaxAge := 3, file := some (), time := 740205 },
        [("x.log", 740205)]) := by
  refine ⟨?_, ?_, ?_⟩
  · rw [(claim_C7 noErrEnv [] "tmp/x.log" 3 740205).1 (by decide)]
    rfl
  · rw [(claim_C7 noErrEnv [] "/tmp/x.log" (-2) 740205).2.1 (by decide) (by decide)]
  · rw [(claim_C7 noErrEnv [] "/tmp/x.log" 3 740205).2.2 (by decide) (by decide) rfl]
    rfl

/-- C8: for every writer whose handle slot is in the 'none' state (as left,
for example, by a rotation that failed after closing the old handle), a
write call returns Go's `os.ErrInvalid` from the underlying write primitive
and writes nothing; the call is total — it cannot crash. -/
theorem claim_C8 (rw : RotateWriter) (env : Env) (n : Nat) (h : rw.file = none) :
    Write rw env n = (some GoErr.errInvalid, 0) := by
  unfold Write fileWrite
  rw [h]

theorem claim_C8_witness :
    (Rotate { noErrEnv with openErr := true }
        { FilePath := "/tmp/app.log", MaxAge := 3, file := some (), time := 740205 }
        [("app.log", 740200)] 740205).2.1.file = none ∧
      Write { FilePath := "/tmp/app.log", MaxAge := 3, file := none, time := 740205 }
        noErrEnv 7 = (some GoErr.errInvalid, 0) :=
  ⟨by decide, claim_C8 _ _ 7 rfl⟩

/-- With no failures, `cleanOldFiles` succeeds and filters the directory,
keeping exactly hidden entries, the live basename, names not ending in the
basename, and authorized archive names. -/
theorem cleanOldFiles_noerr (rw : RotateWriter) (dir : List (String × Nat)) (now : Nat) :
    cleanOldFiles noErrEnv rw dir now = (none, dir.filter (fun e =>
      goStartsWith e.1 "." || e.1 == goBase rw.FilePath ||
      !(goEndsWith e.1 (goBase rw.FilePath)) ||
      (autList rw.MaxAge now (goBase rw.FilePath)).contains e.1)) := by
  unfold cleanOldFiles
  dsimp only
  rw [if_neg (by decide)]
  exact sweepFiles_noerr _ _ _ _ (fun s => rfl)

theorem string_append_assoc (u v w : String) : u ++ v ++ w = u ++ (v ++ w) := by
  apply str_ext
  simp only [String.data_append, List.append_assoc]

/-- A dated archive name `<YYYY-MM-DD>-<basename>` is kept by the sweep of a
writer with retention `N` exactly when its date is between 1 and `N` days
before now: its name is not hidden, differs from the basename, ends in the
basename, and lies in the authorized set iff `1 ≤ j ≤ N`. -/
theorem keep_archive_iff (N now j : Nat) (b : String)
    (hnow : now ≤ 3652364) (hN : N ≤ now) (hj : j ≤ now) :
    ((goStartsWith (fmtDay (now - j) ++ "-" ++ b) "." ||
      (fmtDay (now - j) ++ "-" ++ b) == b ||
      !(goEndsWith (fmtDay (now - j) ++ "-" ++ b) b) ||
      (autList (N : Int) now b).contains (fmtDay (now - j) ++ "-" ++ b)) = true) ↔
      (1 ≤ j ∧ j ≤ N) := by
  have h1 : goStartsWith (fmtDay (now - j) ++ "-" ++ b) "." = false := by
    rw [string_append_assoc]
    exact goStartsWith_archive_dot _ _
  have h2 : ((fmtDay (now - j) ++ "-" ++ b) == b) = false :=
    beq_eq_false_iff_ne.2 (archive_ne_base _ _)
  have h3 : goEndsWith (fmtDay (now - j) ++ "-" ++ b) b = true :=
    goEndsWith_append _ _
  rw [h1, h2, h3]
  simp only [Bool.false_or, Bool.not_true, Bool.false_or]
  rw [mem_autList_iff]
  constructor
  · rintro ⟨k, hk, he⟩
    rw [Int.toNat_ofNat] at hk
    have := archive_name_inj b (by omega) (by omega) he
    omega
  · rintro ⟨hj1, hjN⟩
    refine ⟨j - 1, ?_, ?_⟩
    · rw [Int.toNat_ofNat]
      omega
    · have : j - 1 + 1 = j := by omega
      rw [this]

/-- C1 (amended): with retention `N ≥ 1`, a benign environment and an
archive `<YYYY-MM-DD>-<basename>` in the directory, the cleanup sweep
succeeds and preserves the archive exactly when its embedded date is
between 1 and `N` days before now; an archive dated `N+1` or more days
before now is deleted — and so is one dated *today* (offset 0), because the
authorized window starts one day before now, not at now. -/
theorem claim_C1 (N now j mt : Nat) (rw : RotateWriter) (dir : List (String × Nat))
    (_hN : 1 ≤ N) (hma : rw.MaxAge = (N : Int)) (hnow : now ≤ 3652364) (hNn : N ≤ now)
    (hj : j ≤ now) :
    (cleanOldFiles noErrEnv rw dir now).1 = none ∧
    (1 ≤ j → j ≤ N →
      (fmtDay (now - j) ++ "-" ++ goBase rw.FilePath, mt) ∈ dir →
      (fmtDay (now - j) ++ "-" ++ goBase rw.FilePath, mt) ∈
        (cleanOldFiles noErrEnv rw dir now).2) ∧
    (j = 0 ∨ N < j →
      (fmtDay (now - j) ++ "-" ++ goBase rw.FilePath, mt) ∉
        (cleanOldFiles noErrEnv rw dir now).2) := by
  rw [cleanOldFiles_noerr, hma]
  refine ⟨rfl, ?_, ?_⟩
  · intro hj1 hjN hmem
    apply List.mem_filter.2
    refine ⟨hmem, ?_⟩
    exact (keep_archive_iff N now j (goBase rw.FilePath) hnow hNn hj).2 ⟨hj1, hjN⟩
  · intro hcase hmem
    have := (List.mem_filter.1 hmem).2
    have hkeep := (keep_archive_iff N now j (goBase rw.FilePath) hnow hNn hj).1 this
    omega

/-- C1 counterexample to the claim as stated: with retention `N = 1`, an
archive whose embedded date is *today* — zero days before now, hence "more
recent" than one day before now — is deleted by the sweep (the result is an
empty directory and no error), although the claim requires it preserved. -/
theorem claim_C1_counterexample :
    cleanOldFiles noErrEnv
        { FilePath := "/tmp/app.log", MaxAge := 1, file := some (), time := 740205 }
        [(fmtDay 740205 ++ "-" ++ "app.log", 740205)] 740205 = (none, []) := by
  decide

theorem claim_C1_witness :
    (fmtDay (740205 - 1) ++ "-" ++ goBase "/tmp/app.log", 740204) ∈
      (cleanOldFiles noErrEnv
        { FilePath := "/tmp/app.log", MaxAge := 3, file := some (), time := 740205 }
        [(fmtDay (740205 - 1) ++ "-" ++ goBase "/tmp/app.log", 740204)] 740205).2 :=
  (claim_C1 3 740205 1 740204
    { FilePath := "/tmp/app.log", MaxAge := 3, file := some (), time := 740205 }
    [(fmtDay (740205 - 1) ++ "-" ++ goBase "/tmp/app.log", 740204)]
    (by decide) rfl (by decide) (by decide) (by decide)).2.1
    (by decide) (by decide) (List.mem_cons_self _ _)

/-- C9: in every environment, the cleanup sweep never deletes a directory
entry whose name starts with `.`, equals the live basename, or does not end
with the basename; conversely an entry it does delete is non-hidden, differs
from the basename and ends with the basename — only such entries are
deletion candidates. -/
theorem claim_C9 (env : Env) (rw : RotateWriter) (dir : List (String × Nat)) (now : Nat)
    (fn : String) (mt : Nat) (hmem : (fn, mt) ∈ dir) :
    ((goStartsWith fn "." = true ∨ fn = goBase rw.FilePath ∨
        goEndsWith fn (goBase rw.FilePath) = false) →
      (fn, mt) ∈ (cleanOldFiles env rw dir now).2) ∧
    ((fn, mt) ∉ (cleanOldFiles env rw dir now).2 →
      goStartsWith fn "." = false ∧ fn ≠ goBase rw.FilePath ∧
        goEndsWith fn (goBase rw.FilePath) = true) := by
  unfold cleanOldFiles
  dsimp only
  by_cases hrd : env.readDirErr = true
  · rw [if_pos hrd]
    exact ⟨fun _ => hmem, fun hno => absurd hmem hno⟩
  · rw [if_neg hrd]
    constructor
    · intro hcase
      apply sweepFiles_keep env _ _ dir fn mt hmem
      rcases hcase with h | h | h
      · simp [h]
      · simp [h]
      · simp [h]
    · intro hno
      by_contra hcon
      push_neg at hcon
      apply hno
      apply sweepFiles_keep env _ _ dir fn mt hmem
      by_cases hs : goStartsWith fn "." = true
      · simp [hs]
      · by_cases hb : fn = goBase rw.FilePath
        · simp [hb]
        · have hns : goStartsWith fn "." = false := by simpa using hs
          have hne : goEndsWith fn (goBase rw.FilePath) = false := by
            simpa using hcon hns hb
          simp [hne]

theorem claim_C9_witness :
    (".hidden-app.log", 700000) ∈
      (cleanOldFiles noErrEnv
        { FilePath := "/tmp/app.log", MaxAge := 0, file := some (), time := 740205 }
        [(".hidden-app.log", 700000)] 740205).2 :=
  (claim_C9 noErrEnv
    { FilePath := "/tmp/app.log", MaxAge := 0, file := some (), time := 740205 }
    [(".hidden-app.log", 700000)] 740205 ".hidden-app.log" 700000
    (List.mem_cons_self _ _)).1 (Or.inl (by decide))

/-- C3: during `Rotate` (close, rename and open succeeding), when stat of the
live path succeeds, the live file is renamed within the same directory to
`<YYYY-MM-DD>-<basename>` where the date is formatted from the stat'ed
entry's own modification day `mt` (not from `now`): the directory handed to
the remaining steps contains the archive entry carrying `mt`, and with
retention `-1` the rotation completes successfully on exactly that
directory.  When the live path does not exist, the rename is skipped — only
the reopen touches the directory — and rotation proceeds. -/
theorem claim_C3 (env : Env) (rw : RotateWriter) (dir : List (String × Nat)) (now : Nat)
    (hc : env.closeErr = false) (ho : env.openErr = false) (hre : env.renameErr = false) :
    (∀ mt, lookupFile dir (goBase rw.FilePath) = some mt →
      lookupFile (rotatePreClean rw dir now)
          (fmtDay mt ++ "-" ++ goBase rw.FilePath) = some mt ∧
        (rw.MaxAge = -1 → Rotate env rw dir now =
          (none, { rw with file := some (), time := now },
            openFileDir (renameFile dir (goBase rw.FilePath)
              (fmtDay mt ++ "-" ++ goBase rw.FilePath)) (goBase rw.FilePath) now))) ∧
    (lookupFile dir (goBase rw.FilePath) = none →
      rotatePreClean rw dir now = openFileDir dir (goBase rw.FilePath) now ∧
        (rw.MaxAge = -1 → Rotate env rw dir now =
          (none, { rw with file := some (), time := now },
            openFileDir dir (goBase rw.FilePath) now))) := by
  constructor
  · intro mt hlk
    constructor
    · unfold rotatePreClean
      dsimp only
      rw [hlk]
      dsimp only
      unfold openFileDir
      rw [lookup_renameFile_self (archive_ne_base mt (goBase rw.FilePath))]
      have hne : ¬ goBase rw.FilePath = fmtDay mt ++ "-" ++ goBase rw.FilePath :=
        fun he => archive_ne_base mt (goBase rw.FilePath) he.symm
      simp only [lookupFile, if_neg hne]
      exact lookup_renameFile_dst hlk
    · intro hma
      rw [rotate_open_ok env rw dir now hc ho hre, if_neg (by rw [hma]; decide)]
      unfold rotatePreClean
      dsimp only
      rw [hlk]
  · intro hlk
    have hpre : rotatePreClean rw dir now = openFileDir dir (goBase rw.FilePath) now := by
      unfold rotatePreClean
      dsimp only
      rw [hlk]
    refine ⟨hpre, ?_⟩
    intro hma
    rw [rotate_open_ok env rw dir now hc ho hre, if_neg (by rw [hma]; decide), hpre]

theorem claim_C3_witness :
    lookupFile (rotatePreClean
        { FilePath := "/tmp/app.log", MaxAge := -1, file := some (), time := 740205 }
        [("app.log", 740200)] 740205)
      (fmtDay 740200 ++ "-" ++ goBase "/tmp/app.log") = some 740200 :=
  ((claim_C3 noErrEnv
    { FilePath := "/tmp/app.log", MaxAge := -1, file := some (), time := 740205 }
    [("app.log", 740200)] 740205 rfl rfl rfl).1 740200 (by decide)).1

/-- C5: with close, rename and open succeeding, `Rotate` runs the cleanup
sweep exactly when `MaxAge` is not the `-1` sentinel: with `MaxAge = -1` it
succeeds without consulting the sweep (even a failing directory listing is
never touched) and deletes no entry name other than the live basename;
with a valid `MaxAge ≠ -1` a failing directory listing surfaces as
`Rotate`'s error; and whenever `Rotate` fails at this stage — that is, the
sweep failed — the newly opened handle remains set (no rollback). -/
theorem claim_C5 (env : Env) (rw : RotateWriter) (dir : List (String × Nat)) (now : Nat)
    (hc : env.closeErr = false) (ho : env.openErr = false) (hre : env.renameErr = false) :
    (rw.MaxAge = -1 →
      (Rotate env rw dir now).1 = none ∧
      ∀ n mt, (n, mt) ∈ dir → n ≠ goBase rw.FilePath →
        ∃ mt', (n, mt') ∈ (Rotate env rw dir now).2.2) ∧
    (-1 ≤ rw.MaxAge → rw.MaxAge ≠ -1 → env.readDirErr = true →
      (Rotate env rw dir now).1 = some (GoErr.ioError "readdir")) ∧
    (∀ e, (Rotate env rw dir now).1 = some e →
      (Rotate env rw dir now).2.1.file = some ()) := by
  rw [rotate_open_ok env rw dir now hc ho hre]
  refine ⟨?_, ?_, ?_⟩
  · intro hma
    rw [if_neg (by rw [hma]; decide)]
    refine ⟨rfl, ?_⟩
    intro n mt hmem hne
    exact rotatePreClean_preserves rw dir now n mt hmem hne
  · intro hge hne hrd
    rw [if_pos (by omega)]
    have hcl : cleanOldFiles env { rw with file := some () } (rotatePreClean rw dir now) now
        = (some (GoErr.ioError "readdir"), rotatePreClean rw dir now) := by
      unfold cleanOldFiles
      dsimp only
      rw [if_pos hrd]
    rw [hcl]
  · intro e he
    by_cases hma : rw.MaxAge > -1
    · rw [if_pos hma] at he ⊢
      revert he
      rcases hcl : cleanOldFiles env { rw with file := some () }
        (rotatePreClean rw dir now) now with ⟨oe, d2⟩
      cases oe with
      | some e2 =>
        intro he2
        rfl
      | none =>
        intro he2
        simp at he2
    · rw [if_neg hma] at he
      cases he

theorem claim_C5_witness :
    (Rotate { noErrEnv with readDirErr := true }
        { FilePath := "/tmp/app.log", MaxAge := 3, file := some (), time := 740205 }
        [("app.log", 740200)] 740205).1 = some (GoErr.ioError "readdir") :=
  (claim_C5 { noErrEnv with readDirErr := true }
    { FilePath := "/tmp/app.log", MaxAge := 3, file := some (), time := 740205 }
    [("app.log", 740200)] 740205 rfl rfl rfl).2.1 (by decide) (by decide) rfl

/-- C6: `RotateSafe` performs the rotation action only when `ShouldRotate`
reports true, and otherwise returns success leaving the writer and the
directory untouched; consequently, when a `RotateSafe` call succeeds, an
immediately following `RotateSafe` on the same calendar day is a no-op —
the two calls perform at most one close/rename/reopen cycle. -/
theorem claim_C6 (env env2 : Env) (rw : RotateWriter) (dir : List (String × Nat))
    (now now2 : Nat) (hday : civilFromDays now2 = civilFromDays now) :
    (ShouldRotate rw dir now = false → RotateSafe env rw dir now = (none, rw, dir)) ∧
    (∀ rw' dir', RotateSafe env rw dir now = (none, rw', dir') →
      RotateSafe env2 rw' dir' now2 = (none, rw', dir')) := by
  have hnow : now2 = now := civil_inj hday
  subst hnow
  constructor
  · intro hsr
    unfold RotateSafe
    rw [hsr]
    rfl
  · intro rw' dir' h
    unfold RotateSafe at h
    cases hsr : ShouldRotate rw dir now2 with
    | false =>
      rw [hsr] at h
      rw [if_neg Bool.false_ne_true] at h
      simp only [Prod.mk.injEq, true_and] at h
      obtain ⟨h1, h2⟩ := h
      subst h1
      subst h2
      unfold RotateSafe
      rw [hsr]
      rfl
    | true =>
      rw [hsr] at h
      rw [if_pos rfl] at h
      obtain ⟨hrw, hlk⟩ := rotate_success_state env rw dir now2 rw' dir' h
      have hsr2 : ShouldRotate rw' dir' now2 = false := by
        apply shouldRotate_false_of
        · rw [hrw]
        · rw [hrw]
          exact hlk
      unfold RotateSafe
      rw [hsr2]
      rfl

theorem claim_C6_witness :
    RotateSafe noErrEnv
        { FilePath := "/tmp/app.log", MaxAge := 3, file := some (), time := 740205 }
        [("app.log", 740205)] 740205 =
      (none, { FilePath := "/tmp/app.log", MaxAge := 3, file := some (), time := 740205 },
        [("app.log", 740205)]) :=
  (claim_C6 noErrEnv noErrEnv
    { FilePath := "/tmp/app.log", MaxAge := 3, file := some (), time := 740205 }
    [("app.log", 740200)] 740205 740205 rfl).2
    { FilePath := "/tmp/app.log", MaxAge := 3, file := some (), time := 740205 }
    [("app.log", 740205)] (by decide)

/-- C10 (implicit): retention 0 is accepted by the constructor (0 is above
the `-1` lower bound), is not the unlimited sentinel — the sweep still runs,
so a failing directory listing surfaces as an error — and its authorized
set is empty, so a successful rotation deletes every candidate entry: every
entry surviving `Rotate` is hidden, the live basename, or does not end with
the basename.  Retention 0 therefore keeps no archives and does not disable
cleanup. -/
theorem claim_C10 (env : Env) (p : String) (dir dir0 : List (String × Nat)) (now : Nat)
    (rw : RotateWriter) (hma : rw.MaxAge = 0)
    (hc : env.closeErr = false) (ho : env.openErr = false) (hre : env.renameErr = false) :
    (isAbs (cleanPath p) = true → env.openErr = false →
      (New env dir0 p 0 now).1 =
        Except.ok { FilePath := cleanPath p, MaxAge := 0, file := some (), time := now }) ∧
    (env.readDirErr = true → (Rotate env rw dir now).1 = some (GoErr.ioError "readdir")) ∧
    ((Rotate noErrEnv rw dir now).1 = none ∧
      ∀ fn mt, (fn, mt) ∈ (Rotate noErrEnv rw dir now).2.2 →
        goStartsWith fn "." = true ∨ fn = goBase rw.FilePath ∨
          goEndsWith fn (goBase rw.FilePath) = false) := by
  refine ⟨?_, ?_, ?_⟩
  · intro habs ho2
    unfold New
    dsimp only
    rw [if_neg (by rw [habs]; simp), if_neg (by decide), if_neg (by rw [ho2]; simp)]
  · intro hrd
    rw [rotate_open_ok env rw dir now hc ho hre, if_pos (by rw [hma]; decide)]
    have hcl : cleanOldFiles env { rw with file := some () } (rotatePreClean rw dir now) now
        = (some (GoErr.ioError "readdir"), rotatePreClean rw dir now) := by
      unfold cleanOldFiles
      dsimp only
      rw [if_pos hrd]
    rw [hcl]
  · rw [rotate_open_ok noErrEnv rw dir now rfl rfl rfl, if_pos (by rw [hma]; decide)]
    rw [cleanOldFiles_noerr]
    dsimp only
    refine ⟨rfl, ?_⟩
    intro fn mt hmem
    have hkeep := (List.mem_filter.1 hmem).2
    dsimp only at hkeep
    have haut : (autList ({ rw with file := some () } : RotateWriter).MaxAge now
        (goBase rw.FilePath)).contains fn = false := by
      have : ({ rw with file := some () } : RotateWriter).MaxAge = 0 := hma
      rw [this]
      rfl
    rw [haut, Bool.or_false] at hkeep
    by_cases h1 : goStartsWith fn "." = true
    · exact Or.inl h1
    · by_cases h2 : fn = goBase rw.FilePath
      · exact Or.inr (Or.inl h2)
      · refine Or.inr (Or.inr ?_)
        have hA : goStartsWith fn "." = false := by simpa using h1
        have hB : (fn == goBase rw.FilePath) = false := by simpa using h2
        rw [hA, hB, Bool.false_or, Bool.false_or] at hkeep
        simpa using hkeep

theorem claim_C10_witness :
    (Rotate noErrEnv { FilePath := "/tmp/app.log", MaxAge := 0, file := some (), time := 740205 }
        [(fmtDay (740205 - 1) ++ "-" ++ "app.log", 740204)] 740205).1 = none :=
  (claim_C10 noErrEnv "/tmp/app.log"
    [(fmtDay (740205 - 1) ++ "-" ++ "app.log", 740204)] [] 740205
    { FilePath := "/tmp/app.log", MaxAge := 0, file := some (), time := 740205 }
    rfl rfl rfl rfl).2.2.1

end DailyRotate
